import Mathlib

/-!
Verification of the modal-llama configuration-generation core.

This file gives a shallow embedding, in Lean 4, of the pure configuration
logic of the repository `src/modal_llama`: the GGUF entrypoint resolver
(`models.py`), the command-line builder (`llama_cpp.py`), the supervisor
configuration accumulator (`llama_swap.py`), the nginx reverse-proxy
template (`nginx.py`) and the lifecycle coordinator
(`baremetal/serve.py`), together with theorems settling the
specification claims about them.

Filesystem facts (existence of paths, the set of files in a repository
directory) are passed in as explicit parameters, and process effects are
modelled as event traces, so that every definition stays executable.

The file is organised as definitions first, then theorems.
-/

namespace ModalLlama

/-
### Character-sequence predicates

Claim-side notions used to state properties of generated text documents:
an occurrence of a contiguous block inside a character sequence, together
with executable checks for each notion.
-/

/-- Proposition stating that `s` begins with the block `p`. -/
def startsWithSeq (p s : List Char) : Prop := ∃ t, s = p ++ t

/-- Proposition stating that `s` ends with the block `p`. -/
def endsWithSeq (p s : List Char) : Prop := ∃ t, s = t ++ p

/-- Proposition stating that `p` occurs contiguously somewhere inside `s`. -/
def containsSeq (p s : List Char) : Prop := ∃ u v, s = u ++ p ++ v

/-- Executable check that `s` begins with the block `p`. -/
def startsWithB : List Char → List Char → Bool
  | [], _ => true
  | _ :: _, [] => false
  | p :: ps, c :: cs => p == c && startsWithB ps cs

/-- Executable check that `s` ends with the block `p`. -/
def endsWithB (p s : List Char) : Bool := startsWithB p.reverse s.reverse

/-- Executable check that `p` occurs contiguously inside `s`. -/
def containsB (p : List Char) : List Char → Bool
  | [] => startsWithB p []
  | c :: s => startsWithB p (c :: s) || containsB p s

/-- Every way of writing a sequence as a concatenation of two blocks. -/
def allSplits : List Char → List (List Char × List Char)
  | [] => [([], [])]
  | c :: rest => ([], c :: rest) :: (allSplits rest).map (fun pr => (c :: pr.1, pr.2))

/-- Executable check that no nonempty proper left part of `pat` is a
suffix of `L`; rules out occurrences of `pat` that begin inside `L` and
continue past its right edge. -/
def noEndStraddle (pat L : List Char) : Bool :=
  (allSplits pat).all (fun pr => pr.1.isEmpty || pr.2.isEmpty || !(endsWithB pr.1 L))

/-- Piece of a generated text document: a fixed literal block, or a block
of decimal digits (an interpolated port number). -/
inductive TPart where
  | lit (s : List Char)
  | dig (s : List Char)

def TPart.chars : TPart → List Char
  | .lit s => s
  | .dig s => s

def assembleParts : List TPart → List Char
  | [] => []
  | p :: ps => p.chars ++ assembleParts ps

/-- Conditions on a literal block making a fixed pattern unable to occur
in it or to start inside it. -/
def litOK (pat L : List Char) : Bool := !(containsB pat L) && noEndStraddle pat L

def partOK (pat : List Char) : TPart → Prop
  | .lit L => litOK pat L = true
  | .dig d => ∀ c ∈ d, c.isDigit = true

/-
### Model catalog resolver — `models.py`, `find_gguf_entrypoint`

Filenames are modelled as strings (the name component of a path); the
repository directory is modelled by the list of names of all entries
below it.
-/

/-- Numeric value of a run of decimal digit characters. -/
def digitsToNat (ds : List Char) : Nat := ds.foldl (fun a c => a * 10 + (c.toNat - 48)) 0

/-- Embeds the check `re.search(r"\d+-of-\d+\.gguf$", name)` of
models.py line 39, returning the number `N` of the trailing
`<N>-of-<M>.gguf` marker when the name matches.  A match of that
anchored regex exists exactly when the name ends with `.gguf` preceded by
a nonempty digit run, preceded by `-of-`, preceded by at least one more
digit; the regex's `\d+` groups then necessarily cover the maximal digit
runs, which is what this function reads off. -/
def extractShardSuffix (name : List Char) : Option Nat :=
  let r := name.reverse
  if startsWithB ".gguf".data.reverse r then
    let r1 := r.drop 5
    let ds2 := r1.takeWhile Char.isDigit
    let r2 := r1.dropWhile Char.isDigit
    if ds2.isEmpty then none
    else if startsWithB "-of-".data.reverse r2 then
      let r3 := r2.drop 4
      let ds1 := r3.takeWhile Char.isDigit
      if ds1.isEmpty then none else some (digitsToNat ds1.reverse)
    else none
  else none

/-- Embeds the sort key of models.py line 45,
`int(re.search(r"(\d+)-of-\d+", p.name).group(1))`: the value of the
leftmost maximal digit run that is immediately followed by `-of-` and a
further digit.  `re.search` scans for the leftmost match and `\d+` is
greedy, so group 1 is exactly that run.  The fuel argument (initially the
length of the name) makes the recursion structural; each step consumes at
least one character. -/
def firstShardKeyAux : Nat → List Char → Option Nat
  | 0, _ => none
  | _ + 1, [] => none
  | fuel + 1, c :: rest =>
    if c.isDigit then
      let run := List.takeWhile Char.isDigit (c :: rest)
      let after := List.dropWhile Char.isDigit (c :: rest)
      if startsWithB "-of-".data after &&
          (match after.drop 4 with
           | d :: _ => d.isDigit
           | [] => false) then
        some (digitsToNat run)
      else firstShardKeyAux fuel after
    else firstShardKeyAux fuel rest

def firstShardKey (name : List Char) : Option Nat := firstShardKeyAux name.length name

/-- Sort key used on the multi-file candidates.  On every multi-file
candidate the regex match exists, so the `getD` default is never the
decisive value there. -/
def shardSortKey (name : String) : Nat := (firstShardKey name.data).getD 0

/-- Filter of models.py lines 36-40: candidates whose name ends with
`.gguf` and matches `\d+-of-\d+\.gguf$`. -/
def isMultiFileCandidate (name : String) : Bool :=
  endsWithB ".gguf".data name.data && (extractShardSuffix name.data).isSome

/-- First element of the list `x :: xs` sorted stably by `key`
(models.py lines 44-47: `multi_file_candidates.sort(key=...)` followed by
taking element 0).  Python's sort is stable, so the head of the sorted
list is the earliest element attaining the minimal key, which is what
this left fold computes. -/
def selectMinBy (key : String → Nat) (x : String) (xs : List String) : String :=
  xs.foldl (fun best y => if key y < key best then y else best) x

/-- Error outcomes of `find_gguf_entrypoint`: the `ValueError` raised on
zero candidates (models.py line 33, "No entrypoint found ...") and the
`ValueError` raised by `more_itertools.one` on more than one remaining
candidate (line 50). -/
inductive ResolveErr where
  | notFound
  | ambiguous
deriving DecidableEq

/-- Embeds `find_gguf_entrypoint` (models.py lines 17-50) on an already
gathered candidate set, modelled as a list of file names.  The Python
candidate set is unordered; all theorems below are stated so that they
hold for every enumeration order. -/
def find_gguf_entrypoint (candidates : List String) : Except ResolveErr String :=
  match candidates with
  | [] => .error .notFound
  | c :: cs =>
    match (c :: cs).filter isMultiFileCandidate with
    | [] =>
      match cs with
      | [] => .ok c
      | _ :: _ => .error .ambiguous
    | m :: ms => .ok (selectMinBy shardSortKey m ms)

/-- Glob matching as performed by `Path.rglob` on a pattern free of path
separators, matched against one entry name: `*` matches any sequence,
`?` any single character, any other character itself.  (Character-class
brackets are not modelled; no pattern used by the claims contains a
closed class, and an unmatched `[` is treated literally by Python as
well.)  The fuel argument makes the recursion structural; pattern length
plus name length suffices since every step shrinks their sum. -/
def globMatchAux : Nat → List Char → List Char → Bool
  | 0, _, _ => false
  | _ + 1, [], s => s.isEmpty
  | fuel + 1, p :: ps, s =>
    if p = '*' then
      globMatchAux fuel ps s ||
        (match s with
         | [] => false
         | _ :: s2 => globMatchAux fuel (p :: ps) s2)
    else
      match s with
      | [] => false
      | c :: s2 => (p == '?' || p == c) && globMatchAux fuel ps s2

def globMatch (p s : List Char) : Bool := globMatchAux (p.length + s.length + 1) p s

/-- The `include` argument of `find_gguf_entrypoint` (models.py line 18):
`None`, a list of patterns, or a plain string. -/
inductive IncludeArg where
  | noneArg
  | listArg (patterns : List String)
  | strArg (s : String)

/-- Patterns produced by `for pattern in include` (models.py lines 20-24)
after the `None` default is applied.  Python's `for` over a plain string
iterates it character by character, so a string argument contributes one
single-character glob pattern per character. -/
def iterPatterns : IncludeArg → List (List Char)
  | .noneArg => ["*.gguf".data]
  | .listArg l => l.map String.data
  | .strArg s => s.data.map (fun c => [c])

/-- Candidate collection of models.py lines 23-25: the union over the
iterated patterns of `repo_dir.rglob(pattern)`.  The directory tree is
modelled by the list of names of entries below `repo_dir`; `rglob` with a
pattern free of path separators matches the pattern against each entry
name at every depth.  The union of the per-pattern result sets is, as a
set, the sublist of entries matched by at least one pattern. -/
def gatherCandidates (inc : IncludeArg) (entries : List String) : List String :=
  entries.filter (fun e => (iterPatterns inc).any (fun p => globMatch p e.data))

/-
### Model registry entry — `llama_swap.py`, `LlamaSwapModel`
-/

/-- Values of the serialized model mapping produced by `to_dict`:
strings, whole integers, booleans or lists of strings. -/
inductive DVal where
  | str (s : String)
  | int (n : Int)
  | bool (b : Bool)
  | strList (l : List String)
deriving DecidableEq

/-- Embeds the `LlamaSwapModel` dataclass (llama_swap.py lines 28-36).
A Python `timedelta` has microsecond resolution and is modelled by its
total number of microseconds; an `env` dict is modelled by its
insertion-ordered list of key/value pairs. -/
structure LlamaSwapModel where
  name : String
  cmd : String
  aliases : Option (List String)
  ttl : Option Int
  check_endpoint : Option String
  env : Option (List (String × String))
  unlisted : Option Bool
deriving DecidableEq

/-- One `if <field> is not None: d[<key>] = <render>` step of `to_dict`:
a present field contributes its single rendered entry, an absent field
contributes nothing. -/
def optSegment {α : Type} (key : String) (f : α → DVal) : Option α → List (String × DVal)
  | some a => [(key, f a)]
  | none => []

/-- Embeds `LlamaSwapModel.to_dict` (llama_swap.py lines 38-52) as the
insertion-ordered association list of the produced dict.
`int(self.ttl.total_seconds())` truncates the duration toward zero to
whole seconds, i.e. performs truncating division of the microsecond
count by one million; `env` entries are rendered as `KEY=VALUE`. -/
def LlamaSwapModel.to_dict (m : LlamaSwapModel) : List (String × DVal) :=
  [("cmd", DVal.str m.cmd)]
  ++ optSegment "aliases" DVal.strList m.aliases
  ++ optSegment "ttl" (fun t => DVal.int (Int.tdiv t 1000000)) m.ttl
  ++ optSegment "checkEndpoint" DVal.str m.check_endpoint
  ++ optSegment "env" (fun e => DVal.strList (e.map (fun kv => kv.1 ++ "=" ++ kv.2))) m.env
  ++ optSegment "unlisted" DVal.bool m.unlisted

/-
### Supervisor configuration — `llama_swap.py`, `LlamaSwapConfig`
-/

/-- Embeds the `LlamaSwapConfig` state (llama_swap.py lines 55-65).  The
Python dict `models` is modelled by its insertion-ordered association
list; the health-check timeout is a microsecond count. -/
structure LlamaSwapConfig where
  listen_port : Int
  health_check_timeout : Int
  log_level : String
  models : List (String × LlamaSwapModel)

/-- Embeds the constructor `LlamaSwapConfig.__init__` (lines 56-65): the
given values are stored verbatim — no validation of any kind is
performed — and `models` starts empty.  The Python defaults are
`timedelta(minutes=5)`, i.e. 300000000 microseconds, and log level
`"debug"`. -/
def mkLlamaSwapConfig (listen_port health_check_timeout : Int) (log_level : String) :
    LlamaSwapConfig :=
  { listen_port := listen_port, health_check_timeout := health_check_timeout,
    log_level := log_level, models := [] }

/-- Python dict update `d[k] = v`: an existing key keeps its position and
receives the new value, a new key is appended at the end. -/
def dictInsert (k : String) (v : LlamaSwapModel) :
    List (String × LlamaSwapModel) → List (String × LlamaSwapModel)
  | [] => [(k, v)]
  | (k2, v2) :: rest => if k2 = k then (k, v) :: rest else (k2, v2) :: dictInsert k v rest

/-- Embeds `LlamaSwapConfig.add_model` (lines 67-69): stores the model
under `model.name` in the `models` dict and returns the updated
configuration (Python returns `self` for fluent chaining; state passing
models the mutation). -/
def LlamaSwapConfig.add_model (cfg : LlamaSwapConfig) (model : LlamaSwapModel) :
    LlamaSwapConfig :=
  { cfg with models := dictInsert model.name model cfg.models }

/-- Python dict lookup by key. -/
def lookupName (k : String) : List (String × LlamaSwapModel) → Option LlamaSwapModel
  | [] => none
  | (k2, v) :: rest => if k2 = k then some v else lookupName k rest

/-- The `models` mapping of the payload serialized by
`LlamaSwapConfig.to_yaml` (lines 71-77): each stored model rendered by
`to_dict`.  The YAML text itself is produced by the external `yaml.dump`,
which emits exactly one document entry per mapping entry (reordering keys
alphabetically), so entry counts and entry contents of the document are
captured by this payload. -/
def toPayloadModels (cfg : LlamaSwapConfig) : List (String × List (String × DVal)) :=
  cfg.models.map (fun e => (e.1, e.2.to_dict))

/-
### Command-line builder — `llama_cpp.py`, `LlamaCppConfig.build`
-/

/-- Flag value kinds of the `params` mapping (Python type
`str | float | bool | Path`, plus `None`).  A scalar (string or number)
is carried in its Python `str()` rendering, since only that rendering
reaches the command line. -/
inductive PValue where
  | vNone
  | vBool (b : Bool)
  | vScalar (s : String)
  | vPath (p : String)
deriving DecidableEq

/-- Characters `shlex.quote` leaves unquoted: the complement of
`_find_unsafe`, i.e. ASCII word characters (letters, digits, underscore)
and the characters at-sign, percent, plus, equals, colon, comma, dot,
slash, hyphen; `re.ASCII` makes every non-ASCII character unsafe. -/
def shlexSafeChar (c : Char) : Bool :=
  (c.isAlpha || c.isDigit) ||
    (c = '_' || c = '@' || c = '%' || c = '+' || c = '=' ||
     c = ':' || c = ',' || c = '.' || c = '/' || c = '-')

/-- The single-quote character. -/
def aposCh : Char := Char.ofNat 39

/-- The double-quote character. -/
def dquoteCh : Char := Char.ofNat 34

/-- Embeds `shlex.quote`: the empty string becomes a pair of single
quotes; a string of safe characters is returned unchanged; otherwise the
string is wrapped in single quotes with every embedded single quote
replaced by the five-character sequence quote, double-quote, quote,
double-quote, quote. -/
def shlexQuote (s : String) : String :=
  if s.data.isEmpty then ⟨[aposCh, aposCh]⟩
  else if s.data.all shlexSafeChar then s
  else
    ⟨[aposCh] ++
      s.data.foldr
        (fun c acc =>
          if c = aposCh then aposCh :: dquoteCh :: aposCh :: dquoteCh :: aposCh :: acc
          else c :: acc) [] ++
      [aposCh]⟩

/-- Flag-name translation of llama_cpp.py line 76:
`k.replace("_", "-")`. -/
def hyphenate (k : String) : String :=
  ⟨k.data.map (fun c => if c = '_' then '-' else c)⟩

/-- POSIX paths are absolute exactly when they start with a separator. -/
def isAbsolutePath (p : String) : Bool :=
  match p.data with
  | c :: _ => c = '/'
  | [] => false

/-- Embeds `Path.resolve()` for the aspect the claims use: a relative
path is made absolute against the (absolute) working directory.
Symbolic-link and dot-segment elimination depend on filesystem state and
are not modelled; they never change whether the result is absolute. -/
def resolvePath (cwd p : String) : String :=
  if isAbsolutePath p then p else cwd ++ "/" ++ p

/-- Embeds the `LlamaCppConfig` constructor state (llama_cpp.py lines
28-39): name, binary path, model path and the insertion-ordered `params`
mapping. -/
structure LlamaCppConfig where
  name : String
  binary : String
  model : String
  params : List (String × PValue)
deriving DecidableEq

/-- Fragment appended to the command line for one flag (llama_cpp.py
lines 75-90): `None` and `True` produce the bare hyphenated switch,
`False` produces nothing, a `Path` is resolved and shell-quoted, any
other value is stringified and appended unquoted. -/
def renderParam (cwd : String) (kv : String × PValue) : String :=
  match kv with
  | (k, v) =>
    match v with
    | .vNone => " --" ++ hyphenate k
    | .vBool b => if b then " --" ++ hyphenate k else ""
    | .vScalar s => " --" ++ hyphenate k ++ " " ++ s
    | .vPath p => " --" ++ hyphenate k ++ " " ++ shlexQuote (resolvePath cwd p)

/-- The `ValueError` raised by `LlamaCppConfig.build` before any command
line is assembled, identifying the missing path (llama_cpp.py lines
67-70). -/
inductive BuildError where
  | binaryMissing (path : String)
  | modelMissing (path : String)
deriving DecidableEq

/-- Embeds `LlamaCppConfig.build` (llama_cpp.py lines 60-99).  The
filesystem is abstracted by the existence predicate `fs` and by the
working directory `cwd` used by `Path.resolve`.  The function is pure and
spawns no process; the existence checks precede the construction of any
command line, exactly as in the source. -/
def LlamaCppConfig.build (fs : String → Bool) (cwd : String) (cfg : LlamaCppConfig) :
    Except BuildError LlamaSwapModel :=
  if fs cfg.binary = false then .error (.binaryMissing cfg.binary)
  else if fs cfg.model = false then .error (.modelMissing cfg.model)
  else
    .ok
      { name := cfg.name
        cmd := cfg.params.foldl (fun acc kv => acc ++ renderParam cwd kv)
          (shlexQuote cfg.binary ++ " -m " ++ shlexQuote cfg.model)
        aliases := none
        ttl := none
        check_endpoint := none
        env := none
        unlisted := none }

/-- Claim-side token list for one flag, following the claim's wording:
the hyphenated flag name as a long option; an absent value and a true
boolean yield the bare switch, a false boolean yields no token, a scalar
yields the switch and the stringified value not shell-quoted, a path
yields the switch and the resolved, shell-quoted path. -/
def claimFlagTokens (cwd : String) (kv : String × PValue) : List String :=
  match kv with
  | (k, v) =>
    match v with
    | .vNone => ["--" ++ hyphenate k]
    | .vBool b => if b then ["--" ++ hyphenate k] else []
    | .vScalar s => ["--" ++ hyphenate k, s]
    | .vPath p => ["--" ++ hyphenate k, shlexQuote (resolvePath cwd p)]

/-- Blocks each preceded by a single space, concatenated. -/
def joinListSp : List String → String
  | [] => ""
  | t :: ts => " " ++ t ++ joinListSp ts

/-- Tokens joined by single spaces. -/
def joinTokens : List String → String
  | [] => ""
  | t :: ts => t ++ joinListSp ts

/-- Claim-side command line: the quoted executable, `-m`, the quoted
model path, then the per-flag tokens in mapping order, joined by single
spaces. -/
def claimCmdline (cwd : String) (cfg : LlamaCppConfig) : String :=
  joinTokens ([shlexQuote cfg.binary, "-m", shlexQuote cfg.model] ++
    cfg.params.flatMap (claimFlagTokens cwd))

/-
### Reverse-proxy configuration — `nginx.py`, `start_nginx_reverse_proxy`

The generated document is the Python f-string of lines 44-80 with the
two ports and the conditional authentication block interpolated.  The
template text below is transcribed byte for byte from the source (braces
written with escape codes).
-/

/-- Decimal digit character with value `k` (for `k` below ten). -/
def digitChar : Nat → Char
  | 0 => '0'
  | 1 => '1'
  | 2 => '2'
  | 3 => '3'
  | 4 => '4'
  | 5 => '5'
  | 6 => '6'
  | 7 => '7'
  | 8 => '8'
  | 9 => '9'
  | _ + 10 => '0'

/-- Decimal rendering of a natural number (the f-string interpolation of
an `int`); the fuel argument makes the recursion structural and `n + 1`
fuel always suffices. -/
def natToDecAux : Nat → Nat → List Char → List Char
  | 0, _, acc => acc
  | fuel + 1, n, acc =>
    if n < 10 then digitChar n :: acc
    else natToDecAux fuel (n / 10) (digitChar (n % 10) :: acc)

def natToDec (n : Nat) : List Char := natToDecAux (n + 1) n []

/-- Decimal rendering of a port number as a string. -/
def portStr (n : Nat) : String := ⟨natToDec n⟩

/-- Template text from the start of the document up to the interpolated
listen port. -/
def nginxPartA : String :=
  "events \x7b\n    worker_connections 32;\n\x7d\n\nhttp \x7b\n    # Increase timeouts for long-lived connections\n    proxy_read_timeout 24h;\n    proxy_send_timeout 24h;\n    \n    server \x7b\n        listen "

/-- Template text from the listen port up to the first authentication
block slot (inside `location /`). -/
def nginxPartB1 : String :=
  ";\n        server_name 0.0.0.0;\n        \n        location / \x7b\n"

/-- Template text from the first authentication block slot up to the
first interpolated upstream port. -/
def nginxPartB2 : String := "\n            proxy_pass http://localhost:"

/-- Template text from the first upstream port up to the second
authentication block slot (inside the streaming `location`). -/
def nginxPartC1 : String :=
  ";\n            proxy_set_header Host $host;\n            proxy_set_header X-Real-IP $remote_addr;\n        \x7d\n        \n        # Special handling for SSE streams\n        location ~* (/logs/streamSSE/|/api/modelsSSE) \x7b\n            "

/-- Template text from the second authentication block slot up to the
second interpolated upstream port. -/
def nginxPartC2 : String := "\n            proxy_pass http://localhost:"

/-- Template text from the second upstream port to the end of the
document. -/
def nginxPartD : String :=
  ";\n            proxy_set_header Host $host;\n            proxy_set_header X-Real-IP $remote_addr;\n            \n            # Disable buffering for SSE\n            proxy_buffering off;\n            proxy_cache off;\n            \n            # Increase timeouts specifically for SSE\n            proxy_read_timeout 24h;\n            proxy_send_timeout 24h;\n        \x7d\n    \x7d\n\x7d"

/-- Text of the authentication block before the interpolated token. -/
def nginxAuthA : String :=
  "\n                if ($http_authorization != \"Bearer "

/-- Text of the authentication block after the interpolated token,
containing the conditional `return 403`. -/
def nginxAuthB : String :=
  "\") \x7b\n                    return 403;\n                \x7d"

/-- Embeds the `auth_block` expression of nginx.py lines 35-42:
`f"..." if api_token else ""`.  Python truthiness makes both `None` and
the empty string produce the empty block. -/
def authBlock (api_token : Option String) : String :=
  match api_token with
  | some t => if t = "" then "" else nginxAuthA ++ t ++ nginxAuthB
  | none => ""

/-- Embeds `config_content` of nginx.py lines 44-80: the document
template with the listen port, the two upstream ports and the two
authentication block slots interpolated. -/
def configContent (api_token : Option String) (llama_swap_port listen_port : Nat) : String :=
  nginxPartA ++ portStr listen_port ++ nginxPartB1 ++ authBlock api_token ++ nginxPartB2 ++
    portStr llama_swap_port ++ nginxPartC1 ++ authBlock api_token ++ nginxPartC2 ++
    portStr llama_swap_port ++ nginxPartD

/-- The document text before the first authentication slot; it ends with
the `location /` route header. -/
def nginxPre (listen_port : Nat) : String := nginxPartA ++ portStr listen_port ++ nginxPartB1

/-- The document text between the two authentication slots; it starts
with the forwarding directive of the catch-all route and ends with the
streaming route header. -/
def nginxMid (llama_swap_port : Nat) : String :=
  nginxPartB2 ++ portStr llama_swap_port ++ nginxPartC1

/-- The document text after the second authentication slot; it starts
with the forwarding directive of the streaming route. -/
def nginxPost (llama_swap_port : Nat) : String :=
  nginxPartC2 ++ portStr llama_swap_port ++ nginxPartD

/-- The characters of `return 403`, the body of the conditional
authentication response. -/
def pat403 : List Char := ['r', 'e', 't', 'u', 'r', 'n', ' ', '4', '0', '3']

/-
### Lifecycle coordinator — `baremetal/serve.py`, `serve`

The effectful control flow of `serve` (lines 64-93) is modelled as the
trace of process events it performs, as a function of the decisions that
are external inputs to it: the `detach` flag, the way the blocking
`llama_swap_proc.wait()` ends (normal exit, or `KeyboardInterrupt`
delivered while blocked), and whether `llama_swap_proc.terminate()`
raises.  The source starts nginx (line 78) and then llama-swap
(line 79); in detached mode it returns; otherwise it waits, and on
`KeyboardInterrupt` calls `llama_swap_proc.terminate()` (line 90)
followed by `nginx_proc.terminate()` (line 92) — the two calls are not
protected by any `try`/`finally`, so an exception from the first
propagates out of the `except` block and the second is never attempted.
-/

inductive ServeEv where
  | startNginx
  | startLlamaSwap
  | termLlamaSwap
  | termNginx
deriving DecidableEq

inductive WaitOutcome where
  | exited
  | interrupted
deriving DecidableEq

def serveEvents (detach : Bool) (w : WaitOutcome) (termLlamaSwapRaises : Bool) :
    List ServeEv :=
  [ServeEv.startNginx, ServeEv.startLlamaSwap] ++
    (if detach then []
     else
       match w with
       | .exited => []
       | .interrupted =>
         ServeEv.termLlamaSwap :: (if termLlamaSwapRaises then [] else [ServeEv.termNginx]))

end ModalLlama

namespace ModalLlama

/-
### Theorems: character-sequence machinery
-/

theorem startsWithB_iff : ∀ p s : List Char, startsWithB p s = true ↔ startsWithSeq p s
  | [], s => by simp [startsWithB, startsWithSeq]
  | p :: ps, [] => by simp [startsWithB, startsWithSeq]
  | p :: ps, c :: cs => by
    simp only [startsWithB, Bool.and_eq_true, beq_iff_eq, startsWithB_iff ps cs,
      startsWithSeq, List.cons_append, List.cons.injEq]
    constructor
    · rintro ⟨rfl, t, rfl⟩
      exact ⟨t, rfl, rfl⟩
    · rintro ⟨t, rfl, rfl⟩
      exact ⟨rfl, t, rfl⟩

theorem endsWithB_iff (p s : List Char) : endsWithB p s = true ↔ endsWithSeq p s := by
  unfold endsWithB
  rw [startsWithB_iff]
  constructor
  · rintro ⟨t, ht⟩
    refine ⟨t.reverse, ?_⟩
    have h2 := congrArg List.reverse ht
    simpa using h2
  · rintro ⟨t, rfl⟩
    exact ⟨t.reverse, by simp⟩

theorem containsB_iff (p : List Char) : ∀ s, containsB p s = true ↔ containsSeq p s
  | [] => by
    constructor
    · intro h
      obtain ⟨t, ht⟩ := (startsWithB_iff p []).mp (by simpa [containsB] using h)
      exact ⟨[], t, by simpa using ht⟩
    · rintro ⟨u, v, huv⟩
      have h2 := congrArg List.length huv
      simp only [List.length_nil, List.length_append] at h2
      have hp2 : p = [] := List.length_eq_zero.mp (by omega)
      subst hp2
      simp [containsB, startsWithB]
  | c :: s => by
    rw [containsB]
    simp only [Bool.or_eq_true, startsWithB_iff, containsB_iff p s]
    constructor
    · rintro (⟨t, ht⟩ | ⟨u, v, huv⟩)
      · exact ⟨[], t, by simpa using ht⟩
      · exact ⟨c :: u, v, by simp [huv]⟩
    · rintro ⟨u, v, huv⟩
      cases u with
      | nil => exact Or.inl ⟨v, by simpa using huv⟩
      | cons x u =>
        rw [List.cons_append] at huv
        injection huv with h1 h2
        exact Or.inr ⟨u, v, h2⟩

/-- Occurrence of `pat` at position zero of `a ++ b` either lies at the
start of `a`, or `pat` spills over: it is `a` followed by a nonempty
block starting `b`. -/
theorem startsWith_append_cases :
    ∀ a pat b v : List Char, a ++ b = pat ++ v →
      startsWithSeq pat a ∨ ∃ p2, p2 ≠ [] ∧ pat = a ++ p2 ∧ startsWithSeq p2 b := by
  intro a
  induction a with
  | nil =>
    intro pat b v h
    cases pat with
    | nil => exact Or.inl ⟨[], rfl⟩
    | cons y ps =>
      exact Or.inr ⟨y :: ps, by simp, by simp, ⟨v, by simpa using h⟩⟩
  | cons x a ih =>
    intro pat b v h
    cases pat with
    | nil => exact Or.inl ⟨x :: a, rfl⟩
    | cons y ps =>
      rw [List.cons_append, List.cons_append] at h
      injection h with h1 h2
      rcases ih ps b v h2 with ⟨t, ht⟩ | ⟨p2, hne, hpe, hsb⟩
      · exact Or.inl ⟨t, by simp [h1, ht]⟩
      · exact Or.inr ⟨p2, hne, by simp [h1, hpe], hsb⟩

/-- Occurrence of `pat` inside `a ++ b` lies inside `a`, inside `b`, or
straddles the boundary: `pat = p1 ++ p2` with a nonempty `p1` ending `a`
and a nonempty `p2` starting `b`. -/
theorem containsSeq_append_cases (pat : List Char) :
    ∀ a b : List Char, containsSeq pat (a ++ b) →
      containsSeq pat a ∨ containsSeq pat b ∨
        ∃ p1 p2, pat = p1 ++ p2 ∧ p1 ≠ [] ∧ p2 ≠ [] ∧
          endsWithSeq p1 a ∧ startsWithSeq p2 b := by
  intro a
  induction a with
  | nil =>
    intro b h
    exact Or.inr (Or.inl (by simpa using h))
  | cons x a ih =>
    intro b h
    obtain ⟨u, v, huv⟩ := h
    cases u with
    | nil =>
      simp only [List.nil_append] at huv
      rcases startsWith_append_cases (x :: a) pat b v (by simpa using huv) with
        hsw | ⟨p2, hne, hpe, hsb⟩
      · obtain ⟨t, ht⟩ := hsw
        exact Or.inl ⟨[], t, by simpa using ht⟩
      · exact Or.inr (Or.inr ⟨x :: a, p2, hpe, by simp, hne, ⟨[], by simp⟩, hsb⟩)
    | cons y u =>
      rw [List.cons_append, List.cons_append] at huv
      injection huv with h1 h2
      rcases ih b ⟨u, v, h2⟩ with ⟨u0, v0, h0⟩ | hcb | ⟨p1, p2, hpe, h1ne, h2ne, hea, hsb⟩
      · exact Or.inl ⟨x :: u0, v0, by simp [h0]⟩
      · exact Or.inr (Or.inl hcb)
      · obtain ⟨w, hw⟩ := hea
        exact Or.inr (Or.inr ⟨p1, p2, hpe, h1ne, h2ne, ⟨x :: w, by simp [hw]⟩, hsb⟩)

theorem mem_allSplits : ∀ p1 p2 : List Char, (p1, p2) ∈ allSplits (p1 ++ p2)
  | [], p2 => by
    cases p2 with
    | nil => simp [allSplits]
    | cons c rest => simp [allSplits]
  | x :: p1, p2 => by
    simp only [List.cons_append, allSplits, List.mem_cons, List.mem_map]
    exact Or.inr ⟨(p1, p2), mem_allSplits p1 p2, rfl⟩

/-- A pattern whose first character is not a digit cannot occur in a
document assembled from literal blocks satisfying `litOK` and blocks of
digits. -/
theorem not_containsSeq_assemble (pat : List Char) (hd : Char) (tl : List Char)
    (hpat : pat = hd :: tl) (hhd : hd.isDigit = false) :
    ∀ ps : List TPart, (∀ p ∈ ps, partOK pat p) → ¬ containsSeq pat (assembleParts ps) := by
  intro ps
  induction ps with
  | nil =>
    intro _ h
    obtain ⟨u, v, huv⟩ := h
    have h2 := congrArg List.length huv
    simp [assembleParts, hpat] at h2
    omega
  | cons p ps ih =>
    intro hOK hc
    have hOKp := hOK p (by simp)
    have hOKps := fun q hq => hOK q (List.mem_cons_of_mem _ hq)
    rcases containsSeq_append_cases pat p.chars (assembleParts ps) hc with
      hin | hin | ⟨p1, p2, hpe, h1ne, h2ne, hends, hstarts⟩
    · cases p with
      | lit L =>
        have hcb : containsB pat L = true := (containsB_iff pat L).mpr hin
        have hOKp2 : litOK pat L = true := hOKp
        rw [litOK, hcb] at hOKp2
        simp at hOKp2
      | dig d =>
        obtain ⟨u, v, huv⟩ := hin
        have hmem : hd ∈ d := by
          show hd ∈ TPart.chars (.dig d)
          rw [huv, hpat]
          simp
        have hdig : hd.isDigit = true := hOKp hd hmem
        rw [hhd] at hdig
        exact Bool.false_ne_true hdig
    · exact ih hOKps hin
    · cases p with
      | lit L =>
        have hsp : (p1, p2) ∈ allSplits pat := by
          rw [hpe]
          exact mem_allSplits p1 p2
        have hOKp2 : litOK pat L = true := hOKp
        rw [litOK, Bool.and_eq_true] at hOKp2
        have hall := (List.all_eq_true.mp hOKp2.2) (p1, p2) hsp
        have hEB : endsWithB p1 L = true := (endsWithB_iff p1 L).mpr hends
        rcases List.exists_cons_of_ne_nil h1ne with ⟨c1, t1, rfl⟩
        rcases List.exists_cons_of_ne_nil h2ne with ⟨c2, t2, rfl⟩
        rw [hEB] at hall
        simp [List.isEmpty] at hall
      | dig d =>
        obtain ⟨w, hw⟩ := hends
        rcases List.exists_cons_of_ne_nil h1ne with ⟨c1, t1, rfl⟩
        rw [hpat, List.cons_append] at hpe
        injection hpe with he1 he2
        have hmem : c1 ∈ d := by
          have hw2 : d = w ++ c1 :: t1 := hw
          rw [hw2]
          simp
        have hdig := hOKp c1 hmem
        rw [← he1, hhd] at hdig
        exact Bool.false_ne_true hdig

theorem startsWithSeq_append_right (p a b : List Char) :
    startsWithSeq p a → startsWithSeq p (a ++ b) := by
  rintro ⟨t, rfl⟩
  exact ⟨t ++ b, by simp⟩

theorem endsWithSeq_append_left (p a b : List Char) :
    endsWithSeq p b → endsWithSeq p (a ++ b) := by
  rintro ⟨t, rfl⟩
  exact ⟨a ++ t, by simp⟩

/-
### Theorems: model catalog resolver
-/

theorem selectMinBy_mem : ∀ (key : String → Nat) (x : String) (xs : List String),
    selectMinBy key x xs ∈ x :: xs
  | key, x, [] => by simp [selectMinBy]
  | key, x, y :: ys => by
    have he : selectMinBy key x (y :: ys) =
        selectMinBy key (if key y < key x then y else x) ys := rfl
    rw [he]
    rcases List.mem_cons.mp (selectMinBy_mem key (if key y < key x then y else x) ys) with
      hh | ht
    · rw [hh]
      split
      · simp
      · simp
    · exact List.mem_cons_of_mem _ (List.mem_cons_of_mem _ ht)

theorem selectMinBy_le : ∀ (key : String → Nat) (x : String) (xs : List String),
    ∀ z ∈ x :: xs, key (selectMinBy key x xs) ≤ key z
  | key, x, [], z, hz => by
    have hzx : z = x := by simpa using hz
    subst hzx
    simp [selectMinBy]
  | key, x, y :: ys, z, hz => by
    have he : selectMinBy key x (y :: ys) =
        selectMinBy key (if key y < key x then y else x) ys := rfl
    rw [he]
    have hstart := selectMinBy_le key (if key y < key x then y else x) ys _
      (List.mem_cons_self _ _)
    rcases List.mem_cons.mp hz with rfl | hz2
    · refine le_trans hstart ?_
      split
      · next h => exact Nat.le_of_lt h
      · exact Nat.le_refl _
    · rcases List.mem_cons.mp hz2 with rfl | hz3
      · refine le_trans hstart ?_
        split
        · exact Nat.le_refl _
        · next h => exact Nat.le_of_not_lt h
      · exact selectMinBy_le key (if key y < key x then y else x) ys z
          (List.mem_cons_of_mem _ hz3)

theorem globMatchAux_star : ∀ (s : List Char) (fuel : Nat), s.length + 2 ≤ fuel →
    globMatchAux fuel ['*'] s = true
  | s, 0, h => absurd h (by omega)
  | [], fuel + 1, h => by
    obtain ⟨f, rfl⟩ : ∃ f, fuel = f + 1 := ⟨fuel - 1, by omega⟩
    simp [globMatchAux]
  | c :: s2, fuel + 1, h => by
    have ih := globMatchAux_star s2 fuel (by simp only [List.length_cons] at h; omega)
    simp [globMatchAux, ih]

theorem globMatch_star (s : List Char) : globMatch ['*'] s = true :=
  globMatchAux_star s _ (by simp only [List.length_cons, List.length_nil]; omega)

/-- C10: when the include argument of the catalog resolver is a plain
string, the pattern loop iterates it character by character, each
character acting as one glob pattern; hence whenever the string contains
the character `*`, the single-character pattern `*` is among the iterated
patterns and every entry below the repository directory becomes a
candidate, regardless of the intended filter (as for the call with
`include="*Q4_K_M*"` in `prep_common_models`). -/
theorem claim_C10 : ∀ (s : String) (entries : List String),
    '*' ∈ s.data → gatherCandidates (.strArg s) entries = entries := by
  intro s entries hstar
  apply List.filter_eq_self.mpr
  intro e he
  apply List.any_eq_true.mpr
  refine ⟨['*'], ?_, globMatch_star e.data⟩
  simp only [iterPatterns, List.mem_map]
  exact ⟨'*', hstar, rfl⟩

/-- C10 witness: the include string `"*Q4_K_M*"` used by
`prep_common_models` contains `*`, so every entry of a concrete
repository listing is returned as a candidate. -/
theorem claim_C10_witness :
    gatherCandidates (.strArg "*Q4_K_M*") ["subdir", "model-Q4_K_M.gguf", "README.md"] =
      ["subdir", "model-Q4_K_M.gguf", "README.md"] :=
  claim_C10 "*Q4_K_M*" ["subdir", "model-Q4_K_M.gguf", "README.md"] (by decide)

/-- C1 counterexample: both candidate names end in a `<N>-of-<M>.gguf`
shard marker, with shard numbers 1 (file `a-9-of-9-00001-of-00002.gguf`)
and 2 (file `b-00002-of-00002.gguf`).  The claim, read with the shard
number `N` of the marker, demands the file with the lowest shard
number — the `a` file.  The code sorts by the leftmost `\d+-of-\d+`
occurrence in the name, which for the `a` file is `9-of-9`, and therefore
returns the `b` file. -/
theorem claim_C1_counterexample :
    find_gguf_entrypoint ["a-9-of-9-00001-of-00002.gguf", "b-00002-of-00002.gguf"] =
      .ok "b-00002-of-00002.gguf" ∧
    isMultiFileCandidate "a-9-of-9-00001-of-00002.gguf" = true ∧
    isMultiFileCandidate "b-00002-of-00002.gguf" = true ∧
    extractShardSuffix "a-9-of-9-00001-of-00002.gguf".data = some 1 ∧
    extractShardSuffix "b-00002-of-00002.gguf".data = some 2 :=
  ⟨rfl, rfl, rfl, rfl, rfl⟩

/-- C1 (amended): whenever at least one candidate matches the shard
filter `\d+-of-\d+\.gguf$`, resolution returns a matching candidate whose
leftmost `<N>-of-<M>` number in the name is minimal among all matching
candidates; when, as in the spec's example, each sharded name's leftmost
such occurrence is its trailing shard marker, this is the lowest shard
number.  In particular, for the candidates
`{"m-00002-of-00003.gguf", "m-00001-of-00003.gguf", "m-00003-of-00003.gguf"}`
resolution returns the `00001-of-00003` file. -/
theorem claim_C1 :
    (∀ (l : List String) (m : String) (ms : List String),
        l.filter isMultiFileCandidate = m :: ms →
        ∃ c, find_gguf_entrypoint l = .ok c ∧ isMultiFileCandidate c = true ∧ c ∈ l ∧
          ∀ x ∈ l, isMultiFileCandidate x = true → shardSortKey c ≤ shardSortKey x) ∧
    find_gguf_entrypoint
        ["m-00002-of-00003.gguf", "m-00001-of-00003.gguf", "m-00003-of-00003.gguf"] =
      .ok "m-00001-of-00003.gguf" := by
  constructor
  · intro l m ms hf
    cases l with
    | nil => simp at hf
    | cons c cs =>
      refine ⟨selectMinBy shardSortKey m ms, ?_, ?_, ?_, ?_⟩
      · simp only [find_gguf_entrypoint]
        rw [hf]
      · have hm := selectMinBy_mem shardSortKey m ms
        rw [← hf] at hm
        exact (List.mem_filter.mp hm).2
      · have hm := selectMinBy_mem shardSortKey m ms
        rw [← hf] at hm
        exact (List.mem_filter.mp hm).1
      · intro x hx hmx
        have hxf : x ∈ (c :: cs).filter isMultiFileCandidate := List.mem_filter.mpr ⟨hx, hmx⟩
        rw [hf] at hxf
        exact selectMinBy_le shardSortKey m ms x hxf
  · rfl

/-- C1 witness: instantiating the amended claim on the spec's example
candidates, whose shard filter keeps all three files. -/
theorem claim_C1_witness :
    ∃ c, find_gguf_entrypoint
        ["m-00002-of-00003.gguf", "m-00001-of-00003.gguf", "m-00003-of-00003.gguf"] =
      .ok c ∧ isMultiFileCandidate c = true ∧
      c ∈ ["m-00002-of-00003.gguf", "m-00001-of-00003.gguf", "m-00003-of-00003.gguf"] ∧
      ∀ x ∈ ["m-00002-of-00003.gguf", "m-00001-of-00003.gguf", "m-00003-of-00003.gguf"],
        isMultiFileCandidate x = true → shardSortKey c ≤ shardSortKey x :=
  claim_C1.1 ["m-00002-of-00003.gguf", "m-00001-of-00003.gguf", "m-00003-of-00003.gguf"]
    "m-00002-of-00003.gguf" ["m-00001-of-00003.gguf", "m-00003-of-00003.gguf"] (by rfl)

/-- C2: catalog resolution fails with the zero-match error exactly when
the candidate set is empty; when no candidate matches the shard filter
and at least two candidates remain it fails with the ambiguity error
rather than picking one; and with exactly one non-sharded candidate it
returns that candidate. -/
theorem claim_C2 :
    (∀ l : List String, find_gguf_entrypoint l = .error .notFound ↔ l = []) ∧
    (∀ l : List String, (∀ p ∈ l, isMultiFileCandidate p = false) → 2 ≤ l.length →
      find_gguf_entrypoint l = .error .ambiguous) ∧
    (∀ p : String, isMultiFileCandidate p = false → find_gguf_entrypoint [p] = .ok p) := by
  refine ⟨?_, ?_, ?_⟩
  · intro l
    constructor
    · intro h
      cases l with
      | nil => rfl
      | cons c cs =>
        exfalso
        simp only [find_gguf_entrypoint] at h
        rcases hf : (c :: cs).filter isMultiFileCandidate with _ | ⟨m, ms⟩
        · rw [hf] at h
          cases cs with
          | nil => simp at h
          | cons d ds => simp at h
        · rw [hf] at h
          simp at h
    · rintro rfl
      rfl
  · intro l hall hlen
    cases l with
    | nil => simp at hlen
    | cons a t =>
      cases t with
      | nil => simp at hlen
      | cons b t2 =>
        have hf : (a :: b :: t2).filter isMultiFileCandidate = [] :=
          List.filter_eq_nil_iff.mpr (by intro x hx; simp [hall x hx])
        simp only [find_gguf_entrypoint]
        rw [hf]
  · intro p hp
    have hf : [p].filter isMultiFileCandidate = [] := by simp [hp]
    simp only [find_gguf_entrypoint]
    rw [hf]

/-- C2 witness: the spec's concrete cases — two non-sharded candidates
fail with the ambiguity error, a single non-sharded candidate is
returned, and the empty candidate set yields the zero-match error. -/
theorem claim_C2_witness :
    find_gguf_entrypoint ["a.gguf", "b.gguf"] = .error .ambiguous ∧
    find_gguf_entrypoint ["a.gguf"] = .ok "a.gguf" ∧
    find_gguf_entrypoint [] = .error .notFound :=
  ⟨claim_C2.2.1 ["a.gguf", "b.gguf"] (by decide) (by decide),
   claim_C2.2.2 "a.gguf" (by decide),
   (claim_C2.1 []).mpr rfl⟩

/-
### Theorems: command-line builder
-/

theorem joinListSp_append : ∀ a b : List String, joinListSp (a ++ b) = joinListSp a ++ joinListSp b
  | [], b => by
    apply String.ext
    simp [joinListSp]
  | t :: ts, b => by
    simp [joinListSp, joinListSp_append ts b, String.append_assoc]

theorem renderParam_eq (cwd : String) (kv : String × PValue) :
    renderParam cwd kv = joinListSp (claimFlagTokens cwd kv) := by
  rcases kv with ⟨k, v⟩
  cases v with
  | vNone =>
    apply String.ext
    simp [renderParam, claimFlagTokens, joinListSp]
  | vBool b =>
    cases b with
    | false => rfl
    | true =>
      apply String.ext
      simp [renderParam, claimFlagTokens, joinListSp]
  | vScalar s =>
    apply String.ext
    simp [renderParam, claimFlagTokens, joinListSp]
  | vPath p =>
    apply String.ext
    simp [renderParam, claimFlagTokens, joinListSp]

theorem build_cmd_eq : ∀ (flags : List (String × PValue)) (cwd base : String),
    flags.foldl (fun acc kv => acc ++ renderParam cwd kv) base =
      base ++ joinListSp (flags.flatMap (claimFlagTokens cwd))
  | [], cwd, base => by
    apply String.ext
    simp [joinListSp]
  | kv :: flags, cwd, base => by
    rw [List.foldl_cons, build_cmd_eq flags cwd (base ++ renderParam cwd kv),
      List.flatMap_cons, joinListSp_append, renderParam_eq, String.append_assoc]

theorem claimCmdline_eq (cwd : String) (cfg : LlamaCppConfig) :
    cfg.params.foldl (fun acc kv => acc ++ renderParam cwd kv)
      (shlexQuote cfg.binary ++ " -m " ++ shlexQuote cfg.model) = claimCmdline cwd cfg := by
  rw [build_cmd_eq]
  unfold claimCmdline
  apply String.ext
  simp [joinTokens, joinListSp, String.data_append]

/-- C3: when both paths exist, the built command line is exactly the
quoted executable, `-m`, the quoted model path, and then, in mapping
order, each flag rendered with underscores replaced by hyphens — a bare
switch for an absent value or a true boolean, nothing for a false
boolean, the stringified unquoted value for a scalar, and the resolved
shell-quoted path for a path value — all joined by single spaces; and
every rendered path value is absolute whenever the working directory
is. -/
theorem claim_C3 : ∀ (fs : String → Bool) (cwd : String) (cfg : LlamaCppConfig),
    fs cfg.binary = true → fs cfg.model = true →
    cfg.build fs cwd = .ok
      { name := cfg.name, cmd := claimCmdline cwd cfg, aliases := none, ttl := none,
        check_endpoint := none, env := none, unlisted := none } ∧
    (isAbsolutePath cwd = true →
      ∀ k p, (k, PValue.vPath p) ∈ cfg.params → isAbsolutePath (resolvePath cwd p) = true) := by
  intro fs cwd cfg hb hm
  constructor
  · unfold LlamaCppConfig.build
    rw [hb, hm, if_neg (by simp), if_neg (by simp), claimCmdline_eq]
  · intro hcwd k p hmem
    unfold resolvePath
    split
    · next h => exact h
    · unfold isAbsolutePath at hcwd ⊢
      rcases hc : cwd.data with _ | ⟨c, rest⟩
      · rw [hc] at hcwd
        simp at hcwd
      · rw [hc] at hcwd
        rw [String.data_append, String.data_append, hc]
        simpa using hcwd

set_option maxHeartbeats 1000000 in
/-- C3 witness: a configuration exercising every flag value kind.  The
false boolean `flash_attn` contributes nothing, `ctx_size` is rendered as
`--ctx-size 131072` unquoted, `verbose` (absent value) and `jinja` (true)
are bare switches, and the relative path given for `lora` is emitted
resolved against the working directory, absolute and shell-quoted. -/
theorem claim_C3_witness :
    (LlamaCppConfig.mk "ds" "/opt/llama/bin/llama-server" "/models/m.gguf"
        [("ctx_size", PValue.vScalar "131072"), ("jinja", PValue.vBool true),
         ("flash_attn", PValue.vBool false), ("verbose", PValue.vNone),
         ("lora", PValue.vPath "my adapters/a.bin")]).build (fun _ => true) "/work" =
      .ok
        { name := "ds",
          cmd := claimCmdline "/work"
            (LlamaCppConfig.mk "ds" "/opt/llama/bin/llama-server" "/models/m.gguf"
              [("ctx_size", PValue.vScalar "131072"), ("jinja", PValue.vBool true),
               ("flash_attn", PValue.vBool false), ("verbose", PValue.vNone),
               ("lora", PValue.vPath "my adapters/a.bin")]),
          aliases := none, ttl := none, check_endpoint := none, env := none,
          unlisted := none } ∧
    isAbsolutePath (resolvePath "/work" "my adapters/a.bin") = true ∧
    claimCmdline "/work"
        (LlamaCppConfig.mk "ds" "/opt/llama/bin/llama-server" "/models/m.gguf"
          [("ctx_size", PValue.vScalar "131072"), ("jinja", PValue.vBool true),
           ("flash_attn", PValue.vBool false), ("verbose", PValue.vNone),
           ("lora", PValue.vPath "my adapters/a.bin")]) =
      "/opt/llama/bin/llama-server -m /models/m.gguf --ctx-size 131072 --jinja --verbose --lora \x27/work/my adapters/a.bin\x27" :=
  ⟨(claim_C3 (fun _ => true) "/work"
      (LlamaCppConfig.mk "ds" "/opt/llama/bin/llama-server" "/models/m.gguf"
        [("ctx_size", PValue.vScalar "131072"), ("jinja", PValue.vBool true),
         ("flash_attn", PValue.vBool false), ("verbose", PValue.vNone),
         ("lora", PValue.vPath "my adapters/a.bin")]) rfl rfl).1,
   (claim_C3 (fun _ => true) "/work"
      (LlamaCppConfig.mk "ds" "/opt/llama/bin/llama-server" "/models/m.gguf"
        [("ctx_size", PValue.vScalar "131072"), ("jinja", PValue.vBool true),
         ("flash_attn", PValue.vBool false), ("verbose", PValue.vNone),
         ("lora", PValue.vPath "my adapters/a.bin")]) rfl rfl).2 rfl "lora"
     "my adapters/a.bin" (by decide),
   by decide⟩

/-- C4: building fails with the error naming the binary path whenever the
executable does not exist, with the error naming the model path whenever
the executable exists but the model artifact does not, and succeeds when
both exist; the embedded `build` is pure, returns the error instead of a
command line, and spawns nothing, matching the source where the two
existence checks precede all command-line assembly. -/
theorem claim_C4 : ∀ (fs : String → Bool) (cwd : String) (cfg : LlamaCppConfig),
    (fs cfg.binary = false → cfg.build fs cwd = .error (.binaryMissing cfg.binary)) ∧
    (fs cfg.binary = true → fs cfg.model = false →
      cfg.build fs cwd = .error (.modelMissing cfg.model)) ∧
    (fs cfg.binary = true → fs cfg.model = true → ∃ m, cfg.build fs cwd = .ok m) := by
  intro fs cwd cfg
  refine ⟨?_, ?_, ?_⟩
  · intro hb
    simp [LlamaCppConfig.build, hb]
  · intro hb hm
    simp [LlamaCppConfig.build, hb, hm]
  · intro hb hm
    refine ⟨{ name := cfg.name,
              cmd := cfg.params.foldl (fun acc kv => acc ++ renderParam cwd kv)
                (shlexQuote cfg.binary ++ " -m " ++ shlexQuote cfg.model),
              aliases := none, ttl := none, check_endpoint := none, env := none,
              unlisted := none }, ?_⟩
    unfold LlamaCppConfig.build
    rw [hb, hm, if_neg (by simp), if_neg (by simp)]

/-- C4 witness: a missing binary is reported as such, a missing model
with an existing binary is reported as such, and with both present the
build succeeds. -/
theorem claim_C4_witness :
    (LlamaCppConfig.mk "m" "/bin/server" "/models/x.gguf" []).build (fun _ => false) "/" =
      .error (.binaryMissing "/bin/server") ∧
    (LlamaCppConfig.mk "m" "/bin/server" "/models/x.gguf" []).build
        (fun s => s == "/bin/server") "/" = .error (.modelMissing "/models/x.gguf") ∧
    ∃ out, (LlamaCppConfig.mk "m" "/bin/server" "/models/x.gguf" []).build
        (fun _ => true) "/" = .ok out :=
  ⟨(claim_C4 (fun _ => false) "/" (LlamaCppConfig.mk "m" "/bin/server" "/models/x.gguf" [])).1
      rfl,
   (claim_C4 (fun s => s == "/bin/server") "/"
      (LlamaCppConfig.mk "m" "/bin/server" "/models/x.gguf" [])).2.1 (by decide) (by decide),
   (claim_C4 (fun _ => true) "/" (LlamaCppConfig.mk "m" "/bin/server" "/models/x.gguf" [])).2.2
      rfl rfl⟩

/-
### Theorems: model registry entry serialization
-/

theorem optSegment_key {α : Type} (key : String) (f : α → DVal) (o : Option α) (k : String) :
    k ∈ (optSegment key f o).map Prod.fst → k = key ∧ o ≠ none := by
  cases o with
  | none =>
    intro h
    simp [optSegment] at h
  | some a =>
    intro h
    simp [optSegment] at h
    exact ⟨h, by simp⟩

/-- C5: a model entry with no optional field set serializes to the
mapping containing only `cmd`; a present `ttl` is emitted as its whole
number of seconds (truncating division of the microsecond count), a
present `env` as the list of `KEY=VALUE` strings; and every emitted key
is either `cmd` or the key of an optional field that is actually present,
so absent fields are omitted entirely rather than emitted as null or
empty. -/
theorem claim_C5 : ∀ m : LlamaSwapModel,
    (m.aliases = none → m.ttl = none → m.check_endpoint = none → m.env = none →
      m.unlisted = none → m.to_dict = [("cmd", DVal.str m.cmd)]) ∧
    (∀ t, m.ttl = some t → ("ttl", DVal.int (Int.tdiv t 1000000)) ∈ m.to_dict) ∧
    (∀ e, m.env = some e →
      ("env", DVal.strList (e.map (fun kv => kv.1 ++ "=" ++ kv.2))) ∈ m.to_dict) ∧
    (∀ k, k ∈ m.to_dict.map Prod.fst →
      k = "cmd" ∨ (k = "aliases" ∧ m.aliases ≠ none) ∨ (k = "ttl" ∧ m.ttl ≠ none) ∨
        (k = "checkEndpoint" ∧ m.check_endpoint ≠ none) ∨ (k = "env" ∧ m.env ≠ none) ∨
        (k = "unlisted" ∧ m.unlisted ≠ none)) := by
  intro m
  refine ⟨?_, ?_, ?_, ?_⟩
  · intro h1 h2 h3 h4 h5
    simp [LlamaSwapModel.to_dict, optSegment, h1, h2, h3, h4, h5]
  · intro t ht
    simp [LlamaSwapModel.to_dict, optSegment, ht]
  · intro e he
    simp [LlamaSwapModel.to_dict, optSegment, he]
  · intro k hk
    simp only [LlamaSwapModel.to_dict, List.map_append, List.mem_append] at hk
    rcases hk with ((((h | h) | h) | h) | h) | h
    · exact Or.inl (by simpa using h)
    · exact Or.inr (Or.inl (optSegment_key "aliases" _ m.aliases k h))
    · exact Or.inr (Or.inr (Or.inl (optSegment_key "ttl" _ m.ttl k h)))
    · exact Or.inr (Or.inr (Or.inr (Or.inl (optSegment_key "checkEndpoint" _
        m.check_endpoint k h))))
    · exact Or.inr (Or.inr (Or.inr (Or.inr (Or.inl (optSegment_key "env" _ m.env k h)))))
    · exact Or.inr (Or.inr (Or.inr (Or.inr (Or.inr (optSegment_key "unlisted" _
        m.unlisted k h)))))

/-- C5 witness: a fully bare entry yields only `cmd`; an entry with a
90-second `ttl` emits `ttl: 90`; an entry with one environment variable
emits `env: ["A=1"]`. -/
theorem claim_C5_witness :
    (LlamaSwapModel.mk "m" "c" none none none none none).to_dict = [("cmd", DVal.str "c")] ∧
    ("ttl", DVal.int 90) ∈
      (LlamaSwapModel.mk "m" "c" none (some 90000000) none none none).to_dict ∧
    ("env", DVal.strList ["A=1"]) ∈
      (LlamaSwapModel.mk "m" "c" none none none (some [("A", "1")]) none).to_dict := by
  refine ⟨(claim_C5 (LlamaSwapModel.mk "m" "c" none none none none none)).1
    rfl rfl rfl rfl rfl, ?_, ?_⟩
  · have h := (claim_C5 (LlamaSwapModel.mk "m" "c" none (some 90000000) none none none)).2.1
      90000000 rfl
    have he : (Int.tdiv 90000000 1000000 : Int) = 90 := by decide
    rw [he] at h
    exact h
  · have h := (claim_C5 (LlamaSwapModel.mk "m" "c" none none none (some [("A", "1")]) none)).2.2.1
      [("A", "1")] rfl
    have he : ([("A", "1")].map (fun kv => kv.1 ++ "=" ++ kv.2)) = ["A=1"] := by decide
    rw [he] at h
    exact h

/-
### Theorems: supervisor configuration accumulator
-/

theorem lookup_dictInsert : ∀ (l : List (String × LlamaSwapModel)) (k : String)
    (v : LlamaSwapModel), lookupName k (dictInsert k v l) = some v
  | [], k, v => by simp [dictInsert, lookupName]
  | (k2, v2) :: rest, k, v => by
    by_cases h : k2 = k
    · simp [dictInsert, h, lookupName]
    · simp [dictInsert, h, lookupName, lookup_dictInsert rest k v]

theorem filter_keys_dictInsert : ∀ (l : List (String × LlamaSwapModel)) (k : String)
    (v : LlamaSwapModel), (l.map Prod.fst).Nodup →
    (dictInsert k v l).filter (fun e => e.1 == k) = [(k, v)]
  | [], k, v, _ => by simp [dictInsert]
  | (k2, v2) :: rest, k, v, h => by
    have h2 : (k2 :: rest.map Prod.fst).Nodup := by simpa using h
    rcases List.nodup_cons.mp h2 with ⟨hk2, hnd⟩
    by_cases hk : k2 = k
    · subst hk
      have hrest : rest.filter (fun e => e.1 == k2) = [] :=
        List.filter_eq_nil_iff.mpr (by
          intro e he hbeq
          exact hk2 (List.mem_map.mpr ⟨e, he, beq_iff_eq.mp hbeq⟩))
      simp [dictInsert, hrest]
    · have hrec := filter_keys_dictInsert rest k v hnd
      simp [dictInsert, hk, hrec]

theorem mem_keys_dictInsert (k : String) (v : LlamaSwapModel) :
    ∀ (l : List (String × LlamaSwapModel)) (x : String),
    x ∈ (dictInsert k v l).map Prod.fst → x = k ∨ x ∈ l.map Prod.fst := by
  intro l
  induction l with
  | nil =>
    intro x h
    simp [dictInsert] at h
    exact Or.inl h
  | cons p rest ih =>
    rcases p with ⟨k2, v2⟩
    intro x h
    rw [dictInsert] at h
    by_cases hk : k2 = k
    · rw [if_pos hk, List.map_cons, List.mem_cons] at h
      rcases h with h1 | hh
      · exact Or.inl h1
      · exact Or.inr (by rw [List.map_cons, List.mem_cons]; exact Or.inr hh)
    · rw [if_neg hk, List.map_cons, List.mem_cons] at h
      rcases h with h1 | hh
      · exact Or.inr (by rw [List.map_cons, List.mem_cons]; exact Or.inl h1)
      · rcases ih x hh with h3 | h4
        · exact Or.inl h3
        · exact Or.inr (by rw [List.map_cons, List.mem_cons]; exact Or.inr h4)

theorem nodup_keys_dictInsert : ∀ (l : List (String × LlamaSwapModel)) (k : String)
    (v : LlamaSwapModel), (l.map Prod.fst).Nodup → ((dictInsert k v l).map Prod.fst).Nodup
  | [], k, v, _ => by simp [dictInsert]
  | (k2, v2) :: rest, k, v, h => by
    have h2 : (k2 :: rest.map Prod.fst).Nodup := by simpa using h
    rcases List.nodup_cons.mp h2 with ⟨hk2, hnd⟩
    by_cases hk : k2 = k
    · subst hk
      simpa [dictInsert] using h2
    · simp only [dictInsert, if_neg hk, List.map_cons, List.nodup_cons]
      refine ⟨?_, nodup_keys_dictInsert rest k v hnd⟩
      intro hmem
      rcases mem_keys_dictInsert k v rest k2 hmem with h3 | h4
      · exact hk h3
      · exact hk2 h4

/-- C6: adding a model stores it under its name and the addition keeps
all other configuration fields unchanged (the Python method mutates and
returns the very same instance); adding two models with the same name
leaves exactly one entry under that name in the serialized models
mapping, and that entry reflects the second addition. -/
theorem claim_C6 : ∀ (cfg : LlamaSwapConfig) (m1 m2 : LlamaSwapModel),
    m2.name = m1.name → (cfg.models.map Prod.fst).Nodup →
    lookupName m2.name ((cfg.add_model m1).add_model m2).models = some m2 ∧
    (toPayloadModels ((cfg.add_model m1).add_model m2)).filter (fun e => e.1 == m1.name) =
      [(m1.name, m2.to_dict)] ∧
    ((cfg.add_model m1).add_model m2).listen_port = cfg.listen_port ∧
    ((cfg.add_model m1).add_model m2).health_check_timeout = cfg.health_check_timeout ∧
    ((cfg.add_model m1).add_model m2).log_level = cfg.log_level := by
  intro cfg m1 m2 hname hnd
  refine ⟨?_, ?_, rfl, rfl, rfl⟩
  · exact lookup_dictInsert _ m2.name m2
  · show ((dictInsert m2.name m2 (dictInsert m1.name m1 cfg.models)).map
      (fun e => (e.1, LlamaSwapModel.to_dict e.2))).filter (fun e => e.1 == m1.name) =
      [(m1.name, m2.to_dict)]
    rw [List.filter_map]
    have hcomp : ((fun e => e.1 == m1.name) ∘
        (fun e : String × LlamaSwapModel => (e.1, LlamaSwapModel.to_dict e.2))) =
        fun e : String × LlamaSwapModel => e.1 == m1.name := rfl
    rw [hcomp, hname, filter_keys_dictInsert (dictInsert m1.name m1 cfg.models) m1.name m2
      (nodup_keys_dictInsert cfg.models m1.name m1 hnd)]
    simp

/-- C6 witness: two models named `m` added to a fresh configuration leave
a single serialized entry under `m`, holding the second model's command
line. -/
theorem claim_C6_witness :
    lookupName "m"
      (((mkLlamaSwapConfig 8080 300000000 "debug").add_model
          (LlamaSwapModel.mk "m" "cmd1" none none none none none)).add_model
        (LlamaSwapModel.mk "m" "cmd2" none none none none none)).models =
      some (LlamaSwapModel.mk "m" "cmd2" none none none none none) ∧
    (toPayloadModels
        (((mkLlamaSwapConfig 8080 300000000 "debug").add_model
            (LlamaSwapModel.mk "m" "cmd1" none none none none none)).add_model
          (LlamaSwapModel.mk "m" "cmd2" none none none none none))).filter
        (fun e => e.1 == "m") =
      [("m", (LlamaSwapModel.mk "m" "cmd2" none none none none none).to_dict)] := by
  have h := claim_C6 (mkLlamaSwapConfig 8080 300000000 "debug")
    (LlamaSwapModel.mk "m" "cmd1" none none none none none)
    (LlamaSwapModel.mk "m" "cmd2" none none none none none) rfl (by simp [mkLlamaSwapConfig])
  exact ⟨h.1, h.2.1⟩

/-- C7 counterexample: the constructor performs no validation, so a
configuration with listen port 0 — not a valid TCP port — is
constructed without error, refuting the claim that constructing a
configuration with a port outside 1–65535 is impossible. -/
theorem claim_C7_counterexample :
    (mkLlamaSwapConfig 0 300000000 "debug").listen_port = 0 ∧
    ¬(1 ≤ (mkLlamaSwapConfig 0 300000000 "debug").listen_port ∧
      (mkLlamaSwapConfig 0 300000000 "debug").listen_port ≤ 65535) :=
  ⟨rfl, by decide⟩

/-- C7 (amended): the constructor stores the given `listen_port` verbatim
without any range validation, and `add_model` preserves it; the 1–65535
validity of the port is therefore an assumption on the caller, not an
enforced invariant. -/
theorem claim_C7 :
    (∀ (p hc : Int) (lv : String), (mkLlamaSwapConfig p hc lv).listen_port = p) ∧
    (∀ (cfg : LlamaSwapConfig) (m : LlamaSwapModel),
      (cfg.add_model m).listen_port = cfg.listen_port) :=
  ⟨fun _ _ _ => rfl, fun _ _ => rfl⟩

/-
### Theorems: reverse-proxy configuration
-/

theorem digitChar_isDigit : ∀ k, (digitChar k).isDigit = true := by
  intro k
  unfold digitChar
  split <;> decide

theorem natToDecAux_digits : ∀ (fuel n : Nat) (acc : List Char),
    (∀ c ∈ acc, c.isDigit = true) → ∀ c ∈ natToDecAux fuel n acc, c.isDigit = true
  | 0, n, acc, hacc => hacc
  | fuel + 1, n, acc, hacc => by
    rw [natToDecAux]
    split
    · intro c hc
      rcases List.mem_cons.mp hc with rfl | hc2
      · exact digitChar_isDigit n
      · exact hacc c hc2
    · refine natToDecAux_digits fuel (n / 10) _ ?_
      intro c hc
      rcases List.mem_cons.mp hc with rfl | hc2
      · exact digitChar_isDigit (n % 10)
      · exact hacc c hc2

theorem natToDec_digits (n : Nat) : ∀ c ∈ natToDec n, c.isDigit = true :=
  natToDecAux_digits (n + 1) n [] (by intro c hc; simp at hc)

theorem portStr_data (n : Nat) : (portStr n).data = natToDec n := rfl

set_option maxRecDepth 8192 in
set_option maxHeartbeats 2000000 in
theorem nginx_litA_OK : litOK pat403 nginxPartA.data = true := by decide

set_option maxRecDepth 8192 in
set_option maxHeartbeats 2000000 in
theorem nginx_litB_OK : litOK pat403 (nginxPartB1.data ++ nginxPartB2.data) = true := by decide

set_option maxRecDepth 8192 in
set_option maxHeartbeats 2000000 in
theorem nginx_litC_OK : litOK pat403 (nginxPartC1.data ++ nginxPartC2.data) = true := by decide

set_option maxRecDepth 8192 in
set_option maxHeartbeats 2000000 in
theorem nginx_litD_OK : litOK pat403 nginxPartD.data = true := by decide

theorem configContent_none_data (swapPort listenPort : Nat) :
    (configContent none swapPort listenPort).data =
      assembleParts [TPart.lit nginxPartA.data, TPart.dig (natToDec listenPort),
        TPart.lit (nginxPartB1.data ++ nginxPartB2.data), TPart.dig (natToDec swapPort),
        TPart.lit (nginxPartC1.data ++ nginxPartC2.data), TPart.dig (natToDec swapPort),
        TPart.lit nginxPartD.data] := by
  simp [configContent, authBlock, assembleParts, TPart.chars, portStr_data,
    String.data_append, List.append_assoc]

theorem configContent_none_no403 (swapPort listenPort : Nat) :
    ¬ containsSeq pat403 (configContent none swapPort listenPort).data := by
  rw [configContent_none_data]
  apply not_containsSeq_assemble pat403 'r' ['e', 't', 'u', 'r', 'n', ' ', '4', '0', '3']
    rfl (by decide)
  intro part hp
  simp only [List.mem_cons, List.not_mem_nil, or_false] at hp
  rcases hp with rfl | rfl | rfl | rfl | rfl | rfl | rfl
  · exact nginx_litA_OK
  · exact natToDec_digits listenPort
  · exact nginx_litB_OK
  · exact natToDec_digits swapPort
  · exact nginx_litC_OK
  · exact natToDec_digits swapPort
  · exact nginx_litD_OK

theorem configContent_some_decomp (swapPort listenPort : Nat) (t : String) (ht : t ≠ "") :
    configContent (some t) swapPort listenPort =
      nginxPre listenPort ++ (nginxAuthA ++ t ++ nginxAuthB) ++ nginxMid swapPort ++
        (nginxAuthA ++ t ++ nginxAuthB) ++ nginxPost swapPort := by
  have ha : authBlock (some t) = nginxAuthA ++ t ++ nginxAuthB := by
    simp only [authBlock]
    rw [if_neg ht]
  unfold configContent nginxPre nginxMid nginxPost
  rw [ha]
  apply String.ext
  simp [String.data_append, List.append_assoc]

/-- C8 (amended): with no bearer token, or with the empty-string token
(which Python truthiness treats as absent), the generated document
contains no `return 403` authentication block at all; with a non-empty
token `t` the document decomposes as the text up to the catch-all route
header, the authentication block, the text from the catch-all forwarding
directive up to the streaming route header, the authentication block
again, and the text from the streaming forwarding directive to the end —
so each of the two route blocks contains, before its `proxy_pass`
directive, the conditional check comparing the authorization header to
exactly `Bearer <t>` and returning 403. -/
theorem claim_C8 : ∀ (swapPort listenPort : Nat) (t : String),
    ¬ containsSeq pat403 (configContent none swapPort listenPort).data ∧
    configContent (some "") swapPort listenPort = configContent none swapPort listenPort ∧
    (t ≠ "" →
      configContent (some t) swapPort listenPort =
        nginxPre listenPort ++ (nginxAuthA ++ t ++ nginxAuthB) ++ nginxMid swapPort ++
          (nginxAuthA ++ t ++ nginxAuthB) ++ nginxPost swapPort ∧
      containsSeq pat403 nginxAuthB.data ∧
      endsWithSeq "Bearer ".data nginxAuthA.data ∧
      endsWithSeq "location / \x7b\n".data (nginxPre listenPort).data ∧
      startsWithSeq "\n            proxy_pass http://localhost:".data
        (nginxMid swapPort).data ∧
      endsWithSeq "location ~* (/logs/streamSSE/|/api/modelsSSE) \x7b\n            ".data
        (nginxMid swapPort).data ∧
      startsWithSeq "\n            proxy_pass http://localhost:".data
        (nginxPost swapPort).data) := by
  intro swapPort listenPort t
  refine ⟨configContent_none_no403 swapPort listenPort, rfl, ?_⟩
  intro ht
  refine ⟨configContent_some_decomp swapPort listenPort t ht, ?_, ?_, ?_, ?_, ?_, ?_⟩
  · exact (containsB_iff pat403 nginxAuthB.data).mp (by decide)
  · exact (endsWithB_iff "Bearer ".data nginxAuthA.data).mp (by decide)
  · show endsWithSeq "location / \x7b\n".data ((nginxPartA ++ portStr listenPort) ++
      nginxPartB1).data
    rw [String.data_append]
    exact endsWithSeq_append_left _ _ _
      ((endsWithB_iff "location / \x7b\n".data nginxPartB1.data).mp (by decide))
  · refine ⟨natToDec swapPort ++ nginxPartC1.data, ?_⟩
    show (nginxPartB2 ++ portStr swapPort ++ nginxPartC1).data = _
    rw [String.data_append, String.data_append, portStr_data, List.append_assoc]
    rfl
  · show endsWithSeq _ ((nginxPartB2 ++ portStr swapPort) ++ nginxPartC1).data
    rw [String.data_append]
    exact endsWithSeq_append_left _ _ _
      ((endsWithB_iff _ nginxPartC1.data).mp (by decide))
  · refine ⟨natToDec swapPort ++ nginxPartD.data, ?_⟩
    show (nginxPartC2 ++ portStr swapPort ++ nginxPartD).data = _
    rw [String.data_append, String.data_append, portStr_data, List.append_assoc]
    rfl

set_option maxHeartbeats 1000000 in
/-- C8 witness: the amended claim instantiated at upstream port 8080,
listen port 8000 and token `secret`. -/
theorem claim_C8_witness :
    ¬ containsSeq pat403 (configContent none 8080 8000).data ∧
    (configContent (some "secret") 8080 8000 =
        nginxPre 8000 ++ (nginxAuthA ++ "secret" ++ nginxAuthB) ++ nginxMid 8080 ++
          (nginxAuthA ++ "secret" ++ nginxAuthB) ++ nginxPost 8080 ∧
      containsSeq pat403 nginxAuthB.data ∧
      endsWithSeq "Bearer ".data nginxAuthA.data ∧
      endsWithSeq "location / \x7b\n".data (nginxPre 8000).data ∧
      startsWithSeq "\n            proxy_pass http://localhost:".data (nginxMid 8080).data ∧
      endsWithSeq "location ~* (/logs/streamSSE/|/api/modelsSSE) \x7b\n            ".data
        (nginxMid 8080).data ∧
      startsWithSeq "\n            proxy_pass http://localhost:".data (nginxPost 8080).data) :=
  ⟨(claim_C8 8080 8000 "secret").1, (claim_C8 8080 8000 "secret").2.2 (by decide)⟩

set_option maxHeartbeats 1000000 in
/-- C8 counterexample: a bearer token that is the empty string is
supplied, yet the generated document is identical to the tokenless
document and contains no `return 403` check — Python's `if api_token`
treats the empty string as absent, refuting the claim for that supplied
token. -/
theorem claim_C8_counterexample :
    configContent (some "") 8080 8000 = configContent none 8080 8000 ∧
    ¬ containsSeq pat403 (configContent (some "") 8080 8000).data := by
  refine ⟨rfl, ?_⟩
  have he : configContent (some "") 8080 8000 = configContent none 8080 8000 := rfl
  rw [he]
  exact configContent_none_no403 8080 8000

/-
### Theorems: process lifecycle coordinator
-/

/-- C9 counterexample: in non-detached mode, when the interrupt arrives
while blocked on the supervisor and terminating the supervisor raises,
the trace ends after the supervisor termination attempt — the proxy
termination is never attempted, because the source wraps neither
`terminate` call in any error handling. -/
theorem claim_C9_counterexample :
    serveEvents false WaitOutcome.interrupted true =
      [ServeEv.startNginx, ServeEv.startLlamaSwap, ServeEv.termLlamaSwap] ∧
    ServeEv.termNginx ∉ serveEvents false WaitOutcome.interrupted true := by
  refine ⟨rfl, ?_⟩
  decide

/-- C9 (amended): the coordinator starts the reverse proxy before the
supervisor in every mode; in non-detached mode, an interrupt received
while blocked on the supervisor leads to terminating the supervisor first
and then the proxy; but the terminations are not error-isolated — an
error while terminating the supervisor propagates and prevents the
attempt to terminate the proxy. -/
theorem claim_C9 :
    (∀ (d : Bool) (w : WaitOutcome) (r : Bool),
      ∃ rest, serveEvents d w r = ServeEv.startNginx :: ServeEv.startLlamaSwap :: rest) ∧
    serveEvents false WaitOutcome.interrupted false =
      [ServeEv.startNginx, ServeEv.startLlamaSwap, ServeEv.termLlamaSwap,
        ServeEv.termNginx] ∧
    serveEvents false WaitOutcome.interrupted true =
      [ServeEv.startNginx, ServeEv.startLlamaSwap, ServeEv.termLlamaSwap] := by
  refine ⟨?_, rfl, rfl⟩
  intro d w r
  exact ⟨_, rfl⟩

end ModalLlama
